import Mathlib

/-!
# Verification of the Force-Directed Graph engine (`ForceGraphEngine.ts`)

A shallow embedding of the engine's data model and operations:

* the Graph Store (`updateData`, `generateColor`) and the camera
  (`screenToWorld`, `onWheel`, panning) are modelled over `ℚ` — the
  JavaScript arithmetic involved there is exact field arithmetic, so the
  rational model is faithful and executable;
* the physics that divides by `Math.sqrt` (velocity clamping, collision
  resolution, spring forces) and the click-distance test are modelled over
  `ℝ` with `Real.sqrt`;
* `Math.random()` is modelled as an explicit stream `rand : ℕ → ℚ` (or `ℝ`)
  of values in `[0, 1)`, consumed in the source's call order;
* the frame loop (`constructor` / `animate` / `start` / `stop`) is modelled
  as a small state machine in which `requestAnimationFrame` hands out fresh
  positive handles.
-/

/-- JavaScript truncation toward zero, on rationals. -/
def ratTrunc (q : ℚ) : ℤ :=
  if 0 ≤ q then ⌊q⌋ else ⌈q⌉

/-- The JavaScript remainder operator `a % b`: `a - b * trunc (a / b)`
(sign follows the dividend). -/
def jsMod (a b : ℚ) : ℚ :=
  a - b * (ratTrunc (a / b) : ℚ)

/-- The hsl triple interpolated into the color string
`hsl(hue, sat%, light%)` by `generateColor`. -/
structure HslColor where
  hue : ℚ
  sat : ℚ
  light : ℚ
deriving DecidableEq, Repr

/-- The function `generateColor(weight)` from `ForceGraphEngine.ts` lines 109–115:
`hue = 200 + (weight * 10) % 60`, `sat = 70 + (weight * 2) % 30`,
`light = 50 + (weight * 2) % 20`. -/
def generateColor (weight : ℚ) : HslColor :=
  { hue := 200 + jsMod (weight * 10) 60
    sat := 70 + jsMod (weight * 2) 30
    light := 50 + jsMod (weight * 2) 20 }

/-- The host-supplied node (`GraphNode` in `types.ts`): `id`, `weight`,
optional position, velocity and color. -/
structure GraphNode where
  id : String
  weight : ℚ
  xOpt : Option ℚ := none
  yOpt : Option ℚ := none
  vxOpt : Option ℚ := none
  vyOpt : Option ℚ := none
  colorOpt : Option HslColor := none
deriving DecidableEq, Repr

/-- The engine-internal node (`EngineNode`): host fields plus mandatory
position, velocity and derived radius.  `updateData` always assigns a
generated `color` at creation, so `color` is mandatory here. -/
structure EngineNode where
  id : String
  weight : ℚ
  x : ℚ
  y : ℚ
  vx : ℚ
  vy : ℚ
  radius : ℚ
  color : HslColor
deriving DecidableEq, Repr

/-- A link between two node ids (`GraphLink` in `types.ts`). -/
structure GraphLink where
  source : String
  target : String
deriving DecidableEq, Repr

/-- The engine's `Map<string, EngineNode>`, as an association list in
insertion order (`Map.set` replaces in place or appends). -/
def NodeMap : Type := List (String × EngineNode)

instance : DecidableEq NodeMap := by
  unfold NodeMap
  infer_instance

/-- Lookup, as `Map.get`: first binding of the key, if any. -/
def mapGet (m : NodeMap) (key : String) : Option EngineNode :=
  match m with
  | [] => none
  | (k, v) :: rest => if k = key then some v else mapGet rest key

/-- Update, as `Map.set`: replace the existing binding or append a new one. -/
def mapSet (m : NodeMap) (key : String) (v : EngineNode) : NodeMap :=
  match m with
  | [] => [(key, v)]
  | (k, w) :: rest =>
    if k = key then (k, v) :: rest else (k, w) :: mapSet rest key v

/-- One step of the `nodes.forEach` loop of `updateData`
(`ForceGraphEngine.ts` lines 81–103), threading the `Math.random()` stream
counter.  `old` is `this.nodes`, looked up for every incoming node; the
accumulator is the `newNodesMap` under construction.  For an existing id the
spread `{ ...existing, weight, radius }` keeps `x, y, vx, vy, color`; for a
new id, `x`/`y` fall back to `center + (Math.random() - 0.5) * 50` (the
random call is skipped when the coordinate is supplied, as `??`
short-circuits), `vx = vy = 0`, and `color` is always `generateColor`. -/
def mergeStep (rand : ℕ → ℚ) (width height : ℚ) (old : NodeMap)
    (st : NodeMap × ℕ) (rawNode : GraphNode) : NodeMap × ℕ :=
  let m := st.1
  let cnt := st.2
  let radius := 15 + rawNode.weight * 3
  match mapGet old rawNode.id with
  | some existing =>
    (mapSet m rawNode.id
      { existing with weight := rawNode.weight, radius := radius }, cnt)
  | none =>
    let xc : ℚ × ℕ :=
      match rawNode.xOpt with
      | some x0 => (x0, cnt)
      | none => (width / 2 + (rand cnt - 1/2) * 50, cnt + 1)
    let yc : ℚ × ℕ :=
      match rawNode.yOpt with
      | some y0 => (y0, xc.2)
      | none => (height / 2 + (rand xc.2 - 1/2) * 50, xc.2 + 1)
    (mapSet m rawNode.id
      { id := rawNode.id, weight := rawNode.weight,
        x := xc.1, y := yc.1, vx := 0, vy := 0,
        radius := radius, color := generateColor rawNode.weight }, yc.2)

/-- The method `updateData(nodes, links)` (`ForceGraphEngine.ts` lines 77–107): build a
fresh map by merging every incoming node against the current map, then
replace `this.nodes` with it (and `this.links` with the incoming list,
verbatim).  Returns the new node map. -/
def updateData (rand : ℕ → ℚ) (width height : ℚ) (old : NodeMap)
    (incoming : List GraphNode) : NodeMap :=
  (incoming.foldl (mergeStep rand width height old) (([] : NodeMap), 0)).1

/-- The camera transform `{x, y, k}` (`transform` field, line 34):
pan offsets and zoom scale. -/
structure Transform where
  x : ℚ
  y : ℚ
  k : ℚ
deriving DecidableEq, Repr

/-- The initial camera transform `{ x: 0, y: 0, k: 1 }`. -/
def initialTransform : Transform := { x := 0, y := 0, k := 1 }

/-- The conversion `screenToWorld(sx, sy)` (lines 121–126): `(s - pan) / k`. -/
def screenToWorld (t : Transform) (s : ℚ × ℚ) : ℚ × ℚ :=
  ((s.1 - t.x) / t.k, (s.2 - t.y) / t.k)

/-- The inverse conversion used inline by `onWheel` (comment at line 149:
`screen = world * k + t`). -/
def worldToScreen (t : Transform) (w : ℚ × ℚ) : ℚ × ℚ :=
  (w.1 * t.k + t.x, w.2 * t.k + t.y)

/-- The handler `onWheel` (lines 139–153): pick `delta = ±0.1` from the wheel
direction, clamp the new scale to `[0.1, 5]`, and recompute the pan so the
world point under the pointer stays fixed. -/
def onWheel (t : Transform) (pos : ℚ × ℚ) (deltaY : ℚ) : Transform :=
  let worldBefore := screenToWorld t pos
  let zoomIntensity : ℚ := 1/10
  let delta := if deltaY > 0 then -zoomIntensity else zoomIntensity
  let newK := max (1/10) (min 5 (t.k * (1 + delta)))
  { x := pos.1 - worldBefore.1 * newK
    y := pos.2 - worldBefore.2 * newK
    k := newK }

/-- A camera event: a wheel zoom at a pointer position, or a pan by a
screen-space delta (`onMove` in the `Panning` state, lines 187–193). -/
inductive CamEvent where
  | wheel (pos : ℚ × ℚ) (deltaY : ℚ)
  | pan (d : ℚ × ℚ)

/-- Apply one camera event to the transform. -/
def applyCamEvent (t : Transform) (e : CamEvent) : Transform :=
  match e with
  | CamEvent.wheel pos deltaY => onWheel t pos deltaY
  | CamEvent.pan d => { t with x := t.x + d.1, y := t.y + d.2 }

/-- Apply a finite sequence of camera events. -/
def applyCamEvents (t : Transform) (es : List CamEvent) : Transform :=
  es.foldl applyCamEvent t

/-! ## Physics over `ℝ` -/

/-- Physics constant `MAX_VELOCITY = 15` (line 31). -/
def MAX_VELOCITY : ℝ := 15

/-- Physics constant `DAMPING = 0.85` (line 29). -/
noncomputable def DAMPING : ℝ := 85 / 100

/-- Physics constant `SPRING_LENGTH = 120` (line 27). -/
def SPRING_LENGTH : ℝ := 120

/-- Physics constant `SPRING_STRENGTH = 0.05` (line 28). -/
noncomputable def SPRING_STRENGTH : ℝ := 5 / 100

/-- A simulated node as seen by the physics passes: position, velocity and
radius over `ℝ`. -/
structure RNode where
  x : ℝ
  y : ℝ
  vx : ℝ
  vy : ℝ
  radius : ℝ

/-- The velocity-limiting step of `integrate` (lines 383–387): if the
magnitude `sqrt(vx² + vy²)` exceeds `MAX_VELOCITY`, rescale both components
by `MAX_VELOCITY / magnitude`; otherwise leave the velocity unchanged. -/
noncomputable def clampVelocity (vx vy : ℝ) : ℝ × ℝ :=
  let vMag := Real.sqrt (vx * vx + vy * vy)
  if vMag > MAX_VELOCITY then
    (vx / vMag * MAX_VELOCITY, vy / vMag * MAX_VELOCITY)
  else (vx, vy)

/-- The per-node body of `integrate` (lines 379–397) for a free node:
clamp the velocity, advance the position by it, then damp it. -/
noncomputable def integrateFree (n : RNode) : RNode :=
  let v := clampVelocity n.vx n.vy
  { n with
    x := n.x + v.1
    y := n.y + v.2
    vx := v.1 * DAMPING
    vy := v.2 * DAMPING }

/-- One inner-loop step of `resolveCollisions` (lines 341–371) on the pair
of indices `ij` of the node list, threading the `Math.random()` stream
counter.  The dragged node is identified by its index; an out-of-range
index reads as absent and the step does nothing (in the source both
indices are always in range). -/
noncomputable def collidePair (dragged : Option ℕ) (rand : ℕ → ℝ)
    (st : List RNode × ℕ) (ij : ℕ × ℕ) : List RNode × ℕ :=
  match st.1[ij.1]?, st.1[ij.2]? with
  | some n1, some n2 =>
    let dx := n2.x - n1.x
    let dy := n2.y - n1.y
    let distSq := dx * dx + dy * dy
    let minDist := n1.radius + n2.radius + 2
    if distSq < minDist * minDist then
      let dist := Real.sqrt distSq
      let tx := if dist = 0 then rand st.2 else dx / dist
      let ty := if dist = 0 then rand (st.2 + 1) else dy / dist
      let cnt := if dist = 0 then st.2 + 2 else st.2
      let overlap := minDist - dist
      let sep : ℝ := 1 / 2
      let ns1 :=
        if some ij.1 ≠ dragged then
          st.1.set ij.1
            { n1 with
              x := n1.x - tx * overlap * sep
              y := n1.y - ty * overlap * sep }
        else st.1
      let ns2 :=
        if some ij.2 ≠ dragged then
          ns1.set ij.2
            { n2 with
              x := n2.x + tx * overlap * sep
              y := n2.y + ty * overlap * sep }
        else ns1
      (ns2, cnt)
    else st
  | _, _ => st

/-- The unordered index pairs `(i, j)`, `i < j`, in the source's loop
order: `i` ascending, `j` from `i + 1`. -/
def allPairs (n : ℕ) : List (ℕ × ℕ) :=
  (List.range n).flatMap fun i =>
    (List.range (n - (i + 1))).map fun d => (i, i + 1 + d)

/-- The method `resolveCollisions` (lines 335–373): two passes over all unordered
pairs, each pass resolving overlap by position-only correction. -/
noncomputable def resolveCollisions (dragged : Option ℕ) (rand : ℕ → ℝ)
    (ns : List RNode) : List RNode :=
  let pairs := allPairs ns.length
  ((List.range 2).foldl (fun st _ => pairs.foldl (collidePair dragged rand) st)
    (ns, 0)).1

/-! ## Spring forces and link rendering -/

/-- The node map used by the spring pass, keyed by id, over `ℝ`. -/
def RNodeMap : Type := List (String × RNode)

/-- Lookup in an `RNodeMap` (`Map.get`). -/
def rmapGet (m : RNodeMap) (key : String) : Option RNode :=
  match m with
  | [] => none
  | (k, v) :: rest => if k = key then some v else rmapGet rest key

/-- Update in an `RNodeMap` (`Map.set`). -/
def rmapSet (m : RNodeMap) (key : String) (v : RNode) : RNodeMap :=
  match m with
  | [] => [(key, v)]
  | (k, w) :: rest =>
    if k = key then (k, v) :: rest else (k, w) :: rmapSet rest key v

/-- One step of the spring loop of `calculateForces` (lines 305–332): look
up both endpoints, return unchanged if either is missing or the distance is
zero; otherwise apply Hooke's law to each endpoint that is not the dragged
node (identified by id, the map key of the dragged entry). -/
noncomputable def springStep (dragged : Option String) (m : RNodeMap)
    (link : GraphLink) : RNodeMap :=
  match rmapGet m link.source, rmapGet m link.target with
  | some source, some target =>
    let dx := target.x - source.x
    let dy := target.y - source.y
    let dist := Real.sqrt (dx * dx + dy * dy)
    if dist = 0 then m
    else
      let force := (dist - SPRING_LENGTH) * SPRING_STRENGTH
      let fx := dx / dist * force
      let fy := dy / dist * force
      let m1 :=
        if some link.source ≠ dragged then
          rmapSet m link.source
            { source with vx := source.vx + fx, vy := source.vy + fy }
        else m
      if some link.target ≠ dragged then
        rmapSet m1 link.target
          { target with vx := target.vx - fx, vy := target.vy - fy }
      else m1
  | _, _ => m

/-- The full spring pass: `this.links.forEach(...)` in source order. -/
noncomputable def applySprings (dragged : Option String) (m : RNodeMap)
    (links : List GraphLink) : RNodeMap :=
  links.foldl (springStep dragged) m

/-- The renderer's per-link output (lines 424–434): the drawn segment's
endpoints, or nothing when either endpoint id is missing. -/
def drawLinkSegment (m : RNodeMap) (link : GraphLink) :
    Option ((ℝ × ℝ) × (ℝ × ℝ)) :=
  match rmapGet m link.source, rmapGet m link.target with
  | some s, some t => some ((s.x, s.y), (t.x, t.y))
  | _, _ => none

/-- All segments drawn for a link list. -/
def drawnSegments (m : RNodeMap) (links : List GraphLink) :
    List ((ℝ × ℝ) × (ℝ × ℝ)) :=
  links.filterMap (drawLinkSegment m)

/-! ## Input controller: pointer-up -/

/-- The interaction-state fields touched by the `mouseup` window listener
(lines 223–236). -/
structure InputState where
  isDraggingNode : Bool
  draggedNode : Option String
  isPanning : Bool
  clickStartPos : ℝ × ℝ

/-- The global `mouseup` handler (lines 223–236): measure the screen
distance from `clickStartPos`; if a node was being dragged and the distance
is under 5 px, invoke the click callback with it (the returned list of
clicked nodes); then reset drag/pan state.  The dragged node is carried as
its id. -/
noncomputable def onMouseUp (s : InputState) (pos : ℝ × ℝ) :
    InputState × List String :=
  let dist := Real.sqrt ((pos.1 - s.clickStartPos.1) ^ 2 +
    (pos.2 - s.clickStartPos.2) ^ 2)
  let clicks : List String :=
    match s.draggedNode with
    | some n => if s.isDraggingNode = true ∧ dist < 5 then [n] else []
    | none => []
  ({ s with isDraggingNode := false, draggedNode := none, isPanning := false },
    clicks)

/-! ## Frame-loop lifecycle -/

/-- The engine's frame-loop state: the stored `animationFrameId` (`none`
models JavaScript `null`), the number of simulation steps run so far, and
the next handle `requestAnimationFrame` will return (browsers hand out
positive handles; the model starts at 1 and counts up). -/
structure EngineLoop where
  frameId : Option ℕ
  steps : ℕ
  nextFrameId : ℕ
deriving DecidableEq, Repr

/-- JavaScript falsiness of the stored handle: `null` or `0`. -/
def jsFalsyHandle : Option ℕ → Bool
  | none => true
  | some n => n == 0

/-- The frame callback `animate` (lines 477–481): run one simulation step (integrate + draw,
counted in `steps`) and schedule the next frame, storing its handle. -/
def animateStep (s : EngineLoop) : EngineLoop :=
  { frameId := some s.nextFrameId, steps := s.steps + 1,
    nextFrameId := s.nextFrameId + 1 }

/-- The method `start()` (lines 483–487): run `animate` only when no frame is
scheduled (`if (!this.animationFrameId)`). -/
def engineStart (s : EngineLoop) : EngineLoop :=
  if jsFalsyHandle s.frameId then animateStep s else s

/-- The method `stop()` (lines 489–494): cancel the pending frame and clear the
handle, only when one is scheduled. -/
def engineStop (s : EngineLoop) : EngineLoop :=
  if jsFalsyHandle s.frameId then s else { s with frameId := none }

/-- The frame-loop effect of the constructor (lines 46–60) when a 2D
context is available: `animationFrameId` starts `null`, no step has run,
and the constructor's final action is `this.start()`. -/
def constructEngine : EngineLoop :=
  engineStart { frameId := none, steps := 0, nextFrameId := 1 }

/-! ## Characterization of `updateData` -/

/-- How a result node of `updateData` relates to the incoming raw node it
was merged from: for an id already in the old map, the spread
`{ ...existing, weight, radius }`; for a new id, fresh physics state with
coordinates either supplied or jittered around the viewport center (at some
position of the random stream). -/
def NodeFromRaw (rand : ℕ → ℚ) (width height : ℚ) (old : NodeMap)
    (raw : GraphNode) (nd : EngineNode) : Prop :=
  match mapGet old raw.id with
  | some existing =>
    nd = { existing with weight := raw.weight, radius := 15 + raw.weight * 3 }
  | none =>
    nd.id = raw.id ∧ nd.weight = raw.weight ∧ nd.vx = 0 ∧ nd.vy = 0 ∧
    nd.radius = 15 + raw.weight * 3 ∧ nd.color = generateColor raw.weight ∧
    (match raw.xOpt with
     | some x0 => nd.x = x0
     | none => ∃ c, nd.x = width / 2 + (rand c - 1/2) * 50) ∧
    (match raw.yOpt with
     | some y0 => nd.y = y0
     | none => ∃ c, nd.y = height / 2 + (rand c - 1/2) * 50)

/-- The velocity components of a physics node, as a pair. -/
def velocityOf (n : RNode) : ℝ × ℝ := (n.vx, n.vy)

/-- Sample node list for concrete collision runs: two disks of radius 15,
100 apart (no overlap). -/
def c7Ns : List RNode := [⟨0, 0, 0, 0, 15⟩, ⟨100, 0, 0, 0, 15⟩]

/-- Sample node at the origin, radius 15. -/
def c7N1 : RNode := ⟨0, 0, 0, 0, 15⟩

/-- Sample node at `(10, 0)`, radius 15 — overlapping `c7N1`. -/
def c7N2 : RNode := ⟨10, 0, 0, 0, 15⟩

/-- Sample node list with an overlapping pair: two disks of radius 15,
centers 10 apart. -/
def c7Ov : List RNode := [c7N1, c7N2]

/-- Sample random stream for concrete instantiations: constantly `1/2`
(jitter 0). -/
def c1Rand : ℕ → ℚ := fun _ => 1/2

/-- Sample pre-existing node "a" with nonzero physics state. -/
def c1ExA : EngineNode := ⟨"a", 5, 1, 2, 3, 4, 30, generateColor 5⟩

/-- Sample current node map holding only "a". -/
def c1Old : NodeMap := [("a", c1ExA)]

/-- Sample incoming list: "a" persists with new weight 7, "b" is new with
a supplied `x` and a jittered `y`. -/
def c1Inc : List GraphNode :=
  [⟨"a", 7, none, none, none, none, none⟩,
   ⟨"b", 2, some 9, none, none, none, none⟩]

/-- The merged node for "a": physics state copied, weight 7, radius
recomputed, color kept. -/
def c1NdA : EngineNode := ⟨"a", 7, 1, 2, 3, 4, 15 + 7 * 3, generateColor 5⟩

/-- The freshly created node for "b". -/
def c1NdB : EngineNode :=
  ⟨"b", 2, 9, 600 / 2 + ((1 : ℚ)/2 - 1/2) * 50, 0, 0, 15 + 2 * 3,
    generateColor 2⟩

lemma mapGet_mapSet (m : NodeMap) (k id : String) (v : EngineNode) :
    mapGet (mapSet m k v) id = if k = id then some v else mapGet m id := by
  induction m with
  | nil =>
    by_cases h : k = id <;> simp [mapGet, mapSet, h]
  | cons p rest ih =>
    obtain ⟨pk, pv⟩ := p
    by_cases h1 : pk = k
    · subst h1
      by_cases h2 : pk = id <;> simp [mapGet, mapSet, h2]
    · by_cases h2 : pk = id
      · subst h2
        have hk : ¬ k = pk := fun h => h1 h.symm
        simp [mapGet, mapSet, h1, hk]
      · simp [mapGet, mapSet, h1, h2, ih]

lemma mergeStep_spec (rand : ℕ → ℚ) (W H : ℚ) (old : NodeMap)
    (m : NodeMap) (cnt : ℕ) (raw : GraphNode) :
    ∃ v cnt2, mergeStep rand W H old (m, cnt) raw = (mapSet m raw.id v, cnt2) ∧
      NodeFromRaw rand W H old raw v := by
  cases hold : mapGet old raw.id with
  | some existing =>
    refine ⟨{ existing with weight := raw.weight, radius := 15 + raw.weight * 3 }, cnt, ?_, ?_⟩
    · simp [mergeStep, hold]
    · simp [NodeFromRaw, hold]
  | none =>
    cases hx : raw.xOpt with
    | some x0 =>
      cases hy : raw.yOpt with
      | some y0 =>
        refine ⟨{ id := raw.id, weight := raw.weight, x := x0, y := y0, vx := 0, vy := 0, radius := 15 + raw.weight * 3, color := generateColor raw.weight }, cnt, by simp [mergeStep, hold, hx, hy], ?_⟩
        simp [NodeFromRaw, hold, hx, hy]
      | none =>
        refine ⟨{ id := raw.id, weight := raw.weight, x := x0, y := H / 2 + (rand cnt - 1/2) * 50, vx := 0, vy := 0, radius := 15 + raw.weight * 3, color := generateColor raw.weight }, cnt + 1, by simp [mergeStep, hold, hx, hy], ?_⟩
        simp [NodeFromRaw, hold, hx, hy]
    | none =>
      cases hy : raw.yOpt with
      | some y0 =>
        refine ⟨{ id := raw.id, weight := raw.weight, x := W / 2 + (rand cnt - 1/2) * 50, y := y0, vx := 0, vy := 0, radius := 15 + raw.weight * 3, color := generateColor raw.weight }, cnt + 1, by simp [mergeStep, hold, hx, hy], ?_⟩
        simp [NodeFromRaw, hold, hx, hy]
      | none =>
        refine ⟨{ id := raw.id, weight := raw.weight, x := W / 2 + (rand cnt - 1/2) * 50, y := H / 2 + (rand (cnt + 1) - 1/2) * 50, vx := 0, vy := 0, radius := 15 + raw.weight * 3, color := generateColor raw.weight }, cnt + 2, by simp [mergeStep, hold, hx, hy], ?_⟩
        simp [NodeFromRaw, hold, hx, hy]

lemma foldMerge_get (rand : ℕ → ℚ) (W H : ℚ) (old : NodeMap) :
    ∀ (incoming : List GraphNode) (m : NodeMap) (cnt : ℕ) (id : String)
      (nd : EngineNode),
      mapGet ((incoming.foldl (mergeStep rand W H old) (m, cnt)).1) id =
        some nd →
      mapGet m id = some nd ∨
        ∃ raw, raw ∈ incoming ∧ raw.id = id ∧
          NodeFromRaw rand W H old raw nd := by
  intro incoming
  induction incoming with
  | nil =>
    intro m cnt id nd h
    exact Or.inl h
  | cons a l ih =>
    intro m cnt id nd h
    obtain ⟨v, cnt2, heq, hv⟩ := mergeStep_spec rand W H old m cnt a
    rw [List.foldl_cons, heq] at h
    rcases ih _ _ _ _ h with h1 | ⟨raw, hmem, hid, hraw⟩
    · rw [mapGet_mapSet] at h1
      by_cases hcase : a.id = id
      · rw [if_pos hcase] at h1
        refine Or.inr ⟨a, List.mem_cons_self a l, hcase, ?_⟩
        cases h1
        exact hv
      · rw [if_neg hcase] at h1
        exact Or.inl h1
    · exact Or.inr ⟨raw, List.mem_cons_of_mem a hmem, hid, hraw⟩

lemma foldMerge_present (rand : ℕ → ℚ) (W H : ℚ) (old : NodeMap) :
    ∀ (incoming : List GraphNode) (m : NodeMap) (cnt : ℕ) (id : String),
      ((∃ nd, mapGet m id = some nd) ∨ ∃ raw, raw ∈ incoming ∧ raw.id = id) →
      ∃ nd, mapGet ((incoming.foldl (mergeStep rand W H old) (m, cnt)).1) id =
        some nd := by
  intro incoming
  induction incoming with
  | nil =>
    intro m cnt id h
    rcases h with h | ⟨raw, hmem, _⟩
    · exact h
    · exact absurd hmem (List.not_mem_nil raw)
  | cons a l ih =>
    intro m cnt id h
    obtain ⟨v, cnt2, heq, _⟩ := mergeStep_spec rand W H old m cnt a
    rw [List.foldl_cons, heq]
    apply ih
    by_cases hcase : a.id = id
    · refine Or.inl ⟨v, ?_⟩
      rw [mapGet_mapSet, if_pos hcase]
    · rcases h with ⟨nd, hnd⟩ | ⟨raw, hmem, hid⟩
      · refine Or.inl ⟨nd, ?_⟩
        rw [mapGet_mapSet, if_neg hcase]
        exact hnd
      · rcases List.mem_cons.mp hmem with hr | hr
        · exact absurd (hr ▸ hid) hcase
        · exact Or.inr ⟨raw, hr, hid⟩

lemma camEvents_k_bounds :
    ∀ (es : List CamEvent) (t : Transform), 1/10 ≤ t.k → t.k ≤ 5 →
      1/10 ≤ (applyCamEvents t es).k ∧ (applyCamEvents t es).k ≤ 5 := by
  intro es
  induction es with
  | nil => intro t h1 h2; exact ⟨h1, h2⟩
  | cons e l ih =>
    intro t h1 h2
    cases e with
    | wheel pos deltaY =>
      apply ih
      · exact le_max_left _ _
      · exact max_le (by norm_num) (min_le_left _ _)
    | pan d =>
      exact ih _ h1 h2

lemma engineStart_noop (s : EngineLoop) (id : ℕ)
    (h1 : s.frameId = some id) (h2 : id ≠ 0) : engineStart s = s := by
  simp [engineStart, jsFalsyHandle, h1, h2]

lemma iterate_nextFrameId_pos (k : ℕ) :
    1 ≤ (animateStep^[k] constructEngine).nextFrameId := by
  induction k with
  | zero => norm_num [constructEngine, engineStart, jsFalsyHandle, animateStep]
  | succ n ih =>
    rw [Function.iterate_succ_apply']
    simp only [animateStep]
    omega

lemma iterate_frameId_pos (k : ℕ) :
    ∃ id, (animateStep^[k] constructEngine).frameId = some id ∧ id ≠ 0 := by
  cases k with
  | zero => exact ⟨1, rfl, one_ne_zero⟩
  | succ n =>
    rw [Function.iterate_succ_apply']
    refine ⟨(animateStep^[n] constructEngine).nextFrameId, rfl, ?_⟩
    have := iterate_nextFrameId_pos n
    omega

/-- C4: starting from the initial transform (scale 1), any sequence of
wheel-zoom and pan events keeps the scale in `[0.1, 5]`; every wheel event
sets the scale to the clamp of `k * (1 ± 0.1)`, and pan events never change
the scale. -/
theorem zoom_scale_always_clamped :
    (∀ es : List CamEvent,
      1/10 ≤ (applyCamEvents initialTransform es).k ∧
      (applyCamEvents initialTransform es).k ≤ 5) ∧
    (∀ (t : Transform) (pos : ℚ × ℚ) (deltaY : ℚ),
      (applyCamEvent t (CamEvent.wheel pos deltaY)).k =
        max (1/10) (min 5 (t.k * (1 + (if deltaY > 0 then -(1/10 : ℚ) else 1/10))))) ∧
    (∀ (t : Transform) (d : ℚ × ℚ),
      (applyCamEvent t (CamEvent.pan d)).k = t.k) := by
  refine ⟨?_, ?_, ?_⟩
  · intro es
    exact camEvents_k_bounds es initialTransform (by norm_num [initialTransform])
      (by norm_num [initialTransform])
  · intro t pos deltaY
    rfl
  · intro t d
    rfl

/-- C5: for any transform with scale in `[0.1, 5]`, screen→world→screen
and world→screen→world both round-trip exactly (over `ℚ`). -/
theorem screen_world_roundtrip (t : Transform) (h1 : 1/10 ≤ t.k)
    (h2 : t.k ≤ 5) (p : ℚ × ℚ) :
    worldToScreen t (screenToWorld t p) = p ∧
    screenToWorld t (worldToScreen t p) = p := by
  obtain ⟨px, py⟩ := p
  have hk : t.k ≠ 0 := by
    intro h
    rw [h] at h1
    norm_num at h1
  constructor
  · simp only [screenToWorld, worldToScreen, Prod.mk.injEq]
    constructor <;> field_simp
  · simp only [screenToWorld, worldToScreen, Prod.mk.injEq]
    constructor <;> field_simp

/-- Witness for C5 at the concrete transform `{x = 3, y = -2, k = 2}` and
screen point `(7, 11)`. -/
theorem screen_world_roundtrip_witness :
    ((1 : ℚ)/10 ≤ (2 : ℚ) ∧ (2 : ℚ) ≤ 5) ∧
    (worldToScreen ⟨3, -2, 2⟩ (screenToWorld ⟨3, -2, 2⟩ ((7 : ℚ), (11 : ℚ))) =
        ((7 : ℚ), (11 : ℚ)) ∧
      screenToWorld ⟨3, -2, 2⟩ (worldToScreen ⟨3, -2, 2⟩ ((7 : ℚ), (11 : ℚ))) =
        ((7 : ℚ), (11 : ℚ))) :=
  ⟨by norm_num,
    screen_world_roundtrip ⟨3, -2, 2⟩ (by norm_num) (by norm_num) (7, 11)⟩

/-- C10: on successful construction the constructor itself starts the frame
loop — one simulation step has run, a next frame is scheduled (the stored
handle is non-null), a subsequent `start()` is a no-op, and this stays true
after any number of further frames. -/
theorem constructor_starts_frame_loop :
    constructEngine.steps = 1 ∧
    constructEngine.frameId = some 1 ∧
    constructEngine.frameId ≠ none ∧
    engineStart constructEngine = constructEngine ∧
    (∀ k : ℕ, engineStart (animateStep^[k] constructEngine) =
      animateStep^[k] constructEngine) := by
  refine ⟨rfl, rfl, by decide, ?_, ?_⟩
  · exact engineStart_noop _ 1 rfl one_ne_zero
  · intro k
    obtain ⟨id, hid, hne⟩ := iterate_frameId_pos k
    exact engineStart_noop _ id hid hne

/-- C9: every node stored by `updateData` has `radius = 15 + 3 * weight`,
the weight being the one from the incoming node it was merged from. -/
theorem updateData_radius_formula (rand : ℕ → ℚ) (W H : ℚ) (old : NodeMap)
    (incoming : List GraphNode) (id : String) (nd : EngineNode)
    (hget : mapGet (updateData rand W H old incoming) id = some nd) :
    nd.radius = 15 + 3 * nd.weight ∧
    ∃ raw ∈ incoming, raw.id = id ∧ nd.weight = raw.weight ∧
      nd.radius = 15 + 3 * raw.weight := by
  have hchar := foldMerge_get rand W H old incoming [] 0 id nd hget
  rcases hchar with hbase | ⟨raw, hmem, hid, hraw⟩
  · simp [mapGet] at hbase
  · have hfacts : nd.weight = raw.weight ∧ nd.radius = 15 + raw.weight * 3 := by
      unfold NodeFromRaw at hraw
      cases hold : mapGet old raw.id with
      | some existing =>
        rw [hold] at hraw
        rw [hraw]
        exact ⟨rfl, rfl⟩
      | none =>
        rw [hold] at hraw
        exact ⟨hraw.2.1, hraw.2.2.2.2.1⟩
    obtain ⟨hw, hr⟩ := hfacts
    constructor
    · rw [hr, hw]; ring
    · exact ⟨raw, hmem, hid, hw, by rw [hr]; ring⟩

/-- Witness for C9: weights 5 and 8 yield radii 30 and 39. -/
theorem updateData_radius_formula_witness :
    (mapGet (updateData (fun _ => 0) 800 600 []
        [⟨"1", 5, some 0, some 0, none, none, none⟩,
         ⟨"2", 8, some 0, some 0, none, none, none⟩]) "1" =
      some ⟨"1", 5, 0, 0, 0, 0, 30, generateColor 5⟩) ∧
    (mapGet (updateData (fun _ => 0) 800 600 []
        [⟨"1", 5, some 0, some 0, none, none, none⟩,
         ⟨"2", 8, some 0, some 0, none, none, none⟩]) "2" =
      some ⟨"2", 8, 0, 0, 0, 0, 39, generateColor 8⟩) ∧
    ((30 : ℚ) = 15 + 3 * 5 ∧
      ∃ raw ∈ [(⟨"1", 5, some 0, some 0, none, none, none⟩ : GraphNode),
        ⟨"2", 8, some 0, some 0, none, none, none⟩], raw.id = "1" ∧
        (5 : ℚ) = raw.weight ∧ (30 : ℚ) = 15 + 3 * raw.weight) ∧
    ((39 : ℚ) = 15 + 3 * 8 ∧
      ∃ raw ∈ [(⟨"1", 5, some 0, some 0, none, none, none⟩ : GraphNode),
        ⟨"2", 8, some 0, some 0, none, none, none⟩], raw.id = "2" ∧
        (8 : ℚ) = raw.weight ∧ (39 : ℚ) = 15 + 3 * raw.weight) :=
  ⟨by norm_num [updateData, mergeStep, mapGet, mapSet] <;> decide,
    by norm_num [updateData, mergeStep, mapGet, mapSet] <;> decide,
    updateData_radius_formula (fun _ => 0) 800 600 []
      [⟨"1", 5, some 0, some 0, none, none, none⟩,
       ⟨"2", 8, some 0, some 0, none, none, none⟩] "1"
      ⟨"1", 5, 0, 0, 0, 0, 30, generateColor 5⟩
      (by norm_num [updateData, mergeStep, mapGet, mapSet] <;> decide),
    updateData_radius_formula (fun _ => 0) 800 600 []
      [⟨"1", 5, some 0, some 0, none, none, none⟩,
       ⟨"2", 8, some 0, some 0, none, none, none⟩] "2"
      ⟨"2", 8, 0, 0, 0, 0, 39, generateColor 8⟩
      (by norm_num [updateData, mergeStep, mapGet, mapSet] <;> decide)⟩

/-- C1: `updateData` preserves `x, y, vx, vy` of every id that persists
(overwriting `weight` and recomputing `radius`), and initializes every new
id with `vx = vy = 0` and coordinates either as supplied or as the viewport
center plus a jitter in `[-25, 25]` per axis; every incoming id is present
afterwards. -/
theorem updateData_merge_spec (rand : ℕ → ℚ)
    (hrand : ∀ n, 0 ≤ rand n ∧ rand n < 1) (W H : ℚ) (old : NodeMap)
    (incoming : List GraphNode) :
    (∀ id, (∃ raw ∈ incoming, raw.id = id) →
      ∃ nd, mapGet (updateData rand W H old incoming) id = some nd) ∧
    (∀ id nd, mapGet (updateData rand W H old incoming) id = some nd →
      (∀ ex, mapGet old id = some ex →
        nd.x = ex.x ∧ nd.y = ex.y ∧ nd.vx = ex.vx ∧ nd.vy = ex.vy ∧
        ∃ raw ∈ incoming, raw.id = id ∧ nd.weight = raw.weight ∧
          nd.radius = 15 + 3 * raw.weight) ∧
      (mapGet old id = none →
        nd.vx = 0 ∧ nd.vy = 0 ∧
        ∃ raw ∈ incoming, raw.id = id ∧
          (raw.xOpt = some nd.x ∨
            (raw.xOpt = none ∧ -25 ≤ nd.x - W / 2 ∧ nd.x - W / 2 ≤ 25)) ∧
          (raw.yOpt = some nd.y ∨
            (raw.yOpt = none ∧ -25 ≤ nd.y - H / 2 ∧ nd.y - H / 2 ≤ 25)))) := by
  constructor
  · rintro id ⟨raw, hmem, hid⟩
    exact foldMerge_present rand W H old incoming [] 0 id
      (Or.inr ⟨raw, hmem, hid⟩)
  · intro id nd hget
    rcases foldMerge_get rand W H old incoming [] 0 id nd hget with
      hbase | ⟨raw, hmem, hid, hraw⟩
    · simp [mapGet] at hbase
    constructor
    · intro ex hex
      unfold NodeFromRaw at hraw
      rw [hid, hex] at hraw
      rw [hraw]
      exact ⟨rfl, rfl, rfl, rfl, raw, hmem, hid, rfl, by ring⟩
    · intro hnone
      unfold NodeFromRaw at hraw
      rw [hid, hnone] at hraw
      obtain ⟨-, -, hvx, hvy, -, -, hxp, hyp⟩ := hraw
      refine ⟨hvx, hvy, raw, hmem, hid, ?_, ?_⟩
      · cases hxx : raw.xOpt with
        | some x0 =>
          rw [hxx] at hxp
          exact Or.inl (by rw [hxp])
        | none =>
          rw [hxx] at hxp
          obtain ⟨c, hc⟩ := hxp
          obtain ⟨hc0, hc1⟩ := hrand c
          refine Or.inr ⟨rfl, ?_, ?_⟩ <;> rw [hc] <;> nlinarith
      · cases hyy : raw.yOpt with
        | some y0 =>
          rw [hyy] at hyp
          exact Or.inl (by rw [hyp])
        | none =>
          rw [hyy] at hyp
          obtain ⟨c, hc⟩ := hyp
          obtain ⟨hc0, hc1⟩ := hrand c
          refine Or.inr ⟨rfl, ?_, ?_⟩ <;> rw [hc] <;> nlinarith

/-- Witness for C1: with the constant random stream `1/2`, the persisting
node "a" keeps its physics state and the new node "b" is initialized. -/
theorem updateData_merge_spec_witness :
    (0 ≤ (1 : ℚ)/2 ∧ (1 : ℚ)/2 < 1) ∧
    (c1NdA.x = c1ExA.x ∧ c1NdA.y = c1ExA.y ∧ c1NdA.vx = c1ExA.vx ∧
      c1NdA.vy = c1ExA.vy ∧
      ∃ raw ∈ c1Inc, raw.id = "a" ∧ c1NdA.weight = raw.weight ∧
        c1NdA.radius = 15 + 3 * raw.weight) ∧
    (c1NdB.vx = 0 ∧ c1NdB.vy = 0 ∧
      ∃ raw ∈ c1Inc, raw.id = "b" ∧
        (raw.xOpt = some c1NdB.x ∨
          (raw.xOpt = none ∧ -25 ≤ c1NdB.x - 800 / 2 ∧ c1NdB.x - 800 / 2 ≤ 25)) ∧
        (raw.yOpt = some c1NdB.y ∨
          (raw.yOpt = none ∧ -25 ≤ c1NdB.y - 600 / 2 ∧ c1NdB.y - 600 / 2 ≤ 25))) :=
  ⟨by norm_num,
    ((updateData_merge_spec c1Rand (fun n => by norm_num [c1Rand]) 800 600
        c1Old c1Inc).2 "a" c1NdA
        (by norm_num [c1Rand, c1Old, c1Inc, c1NdA, c1ExA, updateData,
          mergeStep, mapGet, mapSet] <;> decide)).1 c1ExA
      (by norm_num [c1Old, c1ExA, mapGet]),
    ((updateData_merge_spec c1Rand (fun n => by norm_num [c1Rand]) 800 600
        c1Old c1Inc).2 "b" c1NdB
        (by norm_num [c1Rand, c1Old, c1Inc, c1NdB, c1ExA, updateData,
          mergeStep, mapGet, mapSet] <;> decide)).2
      (by norm_num [c1Old, c1ExA, mapGet] <;> decide)⟩

/-- C2 (amended): `updateData` derives `color` from weight only at node
creation (overriding even a supplied color); for a persisting id the stored
color is copied forward unchanged, not recomputed from the new weight. -/
theorem updateData_color_semantics (rand : ℕ → ℚ) (W H : ℚ) (old : NodeMap)
    (incoming : List GraphNode) (id : String) (nd : EngineNode)
    (hget : mapGet (updateData rand W H old incoming) id = some nd) :
    (∀ ex, mapGet old id = some ex → nd.color = ex.color) ∧
    (mapGet old id = none → nd.color = generateColor nd.weight) := by
  rcases foldMerge_get rand W H old incoming [] 0 id nd hget with
    hbase | ⟨raw, hmem, hid, hraw⟩
  · simp [mapGet] at hbase
  constructor
  · intro ex hex
    unfold NodeFromRaw at hraw
    rw [hid, hex] at hraw
    rw [hraw]
  · intro hnone
    unfold NodeFromRaw at hraw
    rw [hid, hnone] at hraw
    obtain ⟨-, hw, -, -, -, hcol, -, -⟩ := hraw
    rw [hcol, hw]

/-- Counterexample to C2 as stated: after an `updateData` that changes the
weight of the persisting id "a" from 5 to 8 (no color supplied anywhere),
the stored color is still the one derived from weight 5, which differs from
the color derived from the new weight 8. -/
theorem updateData_color_stale_counterexample :
    Option.map EngineNode.color
      (mapGet (updateData c1Rand 800 600
        (updateData c1Rand 800 600 []
          [⟨"a", 5, none, none, none, none, none⟩])
        [⟨"a", 8, none, none, none, none, none⟩]) "a") =
      some (generateColor 5) ∧
    Option.map EngineNode.weight
      (mapGet (updateData c1Rand 800 600
        (updateData c1Rand 800 600 []
          [⟨"a", 5, none, none, none, none, none⟩])
        [⟨"a", 8, none, none, none, none, none⟩]) "a") =
      some 8 ∧
    generateColor 5 ≠ generateColor 8 := by
  refine ⟨?_, ?_, ?_⟩ <;>
    norm_num [c1Rand, updateData, mergeStep, mapGet, mapSet, generateColor,
      jsMod, ratTrunc, HslColor.mk.injEq]

/-- Witness for C2 (amended) at the concrete merge of `c1Old` and `c1Inc`:
the persisting node "a" keeps the color derived from its old weight. -/
theorem updateData_color_semantics_witness :
    mapGet c1Old "a" = some c1ExA ∧ c1NdA.color = c1ExA.color :=
  ⟨by norm_num [c1Old, c1ExA, mapGet],
    ((updateData_color_semantics c1Rand 800 600 c1Old c1Inc "a" c1NdA
        (by norm_num [c1Rand, c1Old, c1Inc, c1NdA, c1ExA, updateData,
          mergeStep, mapGet, mapSet] <;> decide)).1 c1ExA
      (by norm_num [c1Old, c1ExA, mapGet]))⟩

/-- C3: the velocity-clamping step of the integrator leaves the magnitude
at most `MAX_VELOCITY`; if the pre-clamp magnitude exceeds the cap, the
result is a positive scalar multiple of the original velocity (same
direction) with magnitude exactly `MAX_VELOCITY`; otherwise the velocity is
unchanged. -/
theorem clampVelocity_spec (vx vy : ℝ) :
    Real.sqrt ((clampVelocity vx vy).1 ^ 2 + (clampVelocity vx vy).2 ^ 2) ≤
      MAX_VELOCITY ∧
    (Real.sqrt (vx * vx + vy * vy) > MAX_VELOCITY →
      (∃ c : ℝ, 0 < c ∧ clampVelocity vx vy = (c * vx, c * vy)) ∧
      Real.sqrt ((clampVelocity vx vy).1 ^ 2 + (clampVelocity vx vy).2 ^ 2) =
        MAX_VELOCITY) ∧
    (¬ Real.sqrt (vx * vx + vy * vy) > MAX_VELOCITY →
      clampVelocity vx vy = (vx, vy)) := by
  have harg : 0 ≤ vx * vx + vy * vy :=
    add_nonneg (mul_self_nonneg vx) (mul_self_nonneg vy)
  have hmsq : Real.sqrt (vx * vx + vy * vy) ^ 2 = vx * vx + vy * vy :=
    Real.sq_sqrt harg
  have h15 : (0 : ℝ) ≤ MAX_VELOCITY := by norm_num [MAX_VELOCITY]
  by_cases hgt : Real.sqrt (vx * vx + vy * vy) > MAX_VELOCITY
  · have hmpos : 0 < Real.sqrt (vx * vx + vy * vy) :=
      lt_of_le_of_lt h15 hgt
    have hne : Real.sqrt (vx * vx + vy * vy) ≠ 0 := ne_of_gt hmpos
    have hclamp : clampVelocity vx vy =
        (vx / Real.sqrt (vx * vx + vy * vy) * MAX_VELOCITY,
         vy / Real.sqrt (vx * vx + vy * vy) * MAX_VELOCITY) := by
      simp only [clampVelocity]
      rw [if_pos hgt]
    have hm2ne : Real.sqrt (vx * vx + vy * vy) ^ 2 ≠ 0 := pow_ne_zero 2 hne
    have hmag2 : (vx / Real.sqrt (vx * vx + vy * vy) * MAX_VELOCITY) ^ 2 +
        (vy / Real.sqrt (vx * vx + vy * vy) * MAX_VELOCITY) ^ 2 =
        MAX_VELOCITY ^ 2 := by
      calc (vx / Real.sqrt (vx * vx + vy * vy) * MAX_VELOCITY) ^ 2 +
          (vy / Real.sqrt (vx * vx + vy * vy) * MAX_VELOCITY) ^ 2
          = (vx * vx + vy * vy) / Real.sqrt (vx * vx + vy * vy) ^ 2 *
            MAX_VELOCITY ^ 2 := by ring
        _ = Real.sqrt (vx * vx + vy * vy) ^ 2 /
            Real.sqrt (vx * vx + vy * vy) ^ 2 * MAX_VELOCITY ^ 2 := by
            rw [hmsq]
        _ = MAX_VELOCITY ^ 2 := by rw [div_self hm2ne, one_mul]
    have hmageq : Real.sqrt ((clampVelocity vx vy).1 ^ 2 +
        (clampVelocity vx vy).2 ^ 2) = MAX_VELOCITY := by
      rw [hclamp]
      simp only
      rw [hmag2, Real.sqrt_sq h15]
    refine ⟨le_of_eq hmageq, fun _ => ⟨⟨MAX_VELOCITY / Real.sqrt (vx * vx + vy * vy), ?_, ?_⟩, hmageq⟩, fun h => absurd hgt h⟩
    · exact div_pos (by norm_num [MAX_VELOCITY]) hmpos
    · rw [hclamp]
      simp only [Prod.mk.injEq]
      constructor <;> ring
  · have hclamp : clampVelocity vx vy = (vx, vy) := by
      simp only [clampVelocity]
      rw [if_neg hgt]
    refine ⟨?_, fun h => absurd h hgt, fun _ => hclamp⟩
    rw [hclamp]
    simp only
    have hsq : vx ^ 2 + vy ^ 2 = vx * vx + vy * vy := by ring
    rw [hsq]
    exact not_lt.mp hgt

/-- Witness for C3: `(20, 0)` has magnitude 20 and is clamped to
direction-preserving magnitude 15; `(3, 4)` has magnitude 5 and is left
unchanged. -/
theorem clampVelocity_spec_witness :
    Real.sqrt ((20 : ℝ) * 20 + 0 * 0) > MAX_VELOCITY ∧
    ((∃ c : ℝ, 0 < c ∧ clampVelocity 20 0 = (c * 20, c * 0)) ∧
      Real.sqrt ((clampVelocity 20 0).1 ^ 2 + (clampVelocity 20 0).2 ^ 2) =
        MAX_VELOCITY) ∧
    (¬ Real.sqrt ((3 : ℝ) * 3 + 4 * 4) > MAX_VELOCITY ∧
      clampVelocity 3 4 = (3, 4)) := by
  have h400 : Real.sqrt ((20 : ℝ) * 20 + 0 * 0) = 20 := by
    rw [show ((20 : ℝ) * 20 + 0 * 0) = 20 ^ 2 by norm_num,
      Real.sqrt_sq (by norm_num : (0 : ℝ) ≤ 20)]
  have h25 : Real.sqrt ((3 : ℝ) * 3 + 4 * 4) = 5 := by
    rw [show ((3 : ℝ) * 3 + 4 * 4) = 5 ^ 2 by norm_num,
      Real.sqrt_sq (by norm_num : (0 : ℝ) ≤ 5)]
  have hgt : Real.sqrt ((20 : ℝ) * 20 + 0 * 0) > MAX_VELOCITY := by
    rw [h400]; norm_num [MAX_VELOCITY]
  have hle : ¬ Real.sqrt ((3 : ℝ) * 3 + 4 * 4) > MAX_VELOCITY := by
    rw [h25]; norm_num [MAX_VELOCITY]
  exact ⟨hgt, (clampVelocity_spec 20 0).2.1 hgt,
    hle, (clampVelocity_spec 3 4).2.2 hle⟩

lemma get_of_set {α : Type} (l : List α) (i j : ℕ) (a : α) :
    (l.set i a)[j]? =
      if i = j ∧ j < l.length then some a else l[j]? := by
  induction l generalizing i j with
  | nil => simp
  | cons b t ih =>
    cases i with
    | zero =>
      cases j with
      | zero => simp
      | succ k => simp
    | succ m =>
      cases j with
      | zero => simp
      | succ k =>
        simp only [List.set, List.getElem?_cons_succ, ih, List.length_cons]
        by_cases h : m = k ∧ k < t.length
        · rw [if_pos h, if_pos ⟨by omega, by omega⟩]
        · rw [if_neg h, if_neg (by omega)]

lemma map_v_of_set (ns : List RNode) (i : ℕ) (nnew : RNode)
    (h : ∀ m, ns[i]? = some m → nnew.vx = m.vx ∧ nnew.vy = m.vy) :
    (ns.set i nnew).map velocityOf = ns.map velocityOf := by
  induction ns generalizing i with
  | nil => simp
  | cons b t ih =>
    cases i with
    | zero =>
      obtain ⟨h1, h2⟩ := h b (by simp)
      simp [velocityOf, h1, h2]
    | succ m =>
      simp only [List.set, List.map_cons, List.cons.injEq, true_and]
      exact ih m (fun x hx => h x (by simpa using hx))

lemma map_v_double (ns : List RNode) (i j : ℕ) (n1 n2 : RNode)
    (X1 Y1 X2 Y2 : ℝ) (b1 b2 : Prop) [Decidable b1] [Decidable b2]
    (hg1 : ns[i]? = some n1) (hg2 : ns[j]? = some n2) :
    List.map velocityOf
      (if b2 then
        (if b1 then ns.set i { n1 with x := X1, y := Y1 } else ns).set j
          { n2 with x := X2, y := Y2 }
       else if b1 then ns.set i { n1 with x := X1, y := Y1 } else ns) =
      List.map velocityOf ns := by
  have hbase : (ns.set i { n1 with x := X1, y := Y1 }).map velocityOf =
      ns.map velocityOf := by
    apply map_v_of_set
    intro m hm
    rw [hg1] at hm
    cases hm
    exact ⟨rfl, rfl⟩
  by_cases h2 : b2
  · rw [if_pos h2]
    by_cases h1 : b1
    · rw [if_pos h1]
      refine Eq.trans ?_ hbase
      apply map_v_of_set
      intro m hm
      rw [get_of_set] at hm
      by_cases hc : i = j ∧ j < ns.length
      · rw [if_pos hc] at hm
        cases hm
        have hn12 : n1 = n2 := by
          rw [hc.1] at hg1
          rw [hg1] at hg2
          cases hg2
          rfl
        exact ⟨by rw [show ({ n2 with x := X2, y := Y2 } : RNode).vx = n2.vx from rfl, ← hn12], by rw [show ({ n2 with x := X2, y := Y2 } : RNode).vy = n2.vy from rfl, ← hn12]⟩
      · rw [if_neg hc] at hm
        rw [hg2] at hm
        cases hm
        exact ⟨rfl, rfl⟩
    · rw [if_neg h1]
      apply map_v_of_set
      intro m hm
      rw [hg2] at hm
      cases hm
      exact ⟨rfl, rfl⟩
  · rw [if_neg h2]
    by_cases h1 : b1
    · rw [if_pos h1]
      exact hbase
    · rw [if_neg h1]

lemma collidePair_map_velocity (dragged : Option ℕ) (rand : ℕ → ℝ)
    (st : List RNode × ℕ) (ij : ℕ × ℕ) :
    ((collidePair dragged rand st ij).1).map velocityOf =
      st.1.map velocityOf := by
  obtain ⟨ns, cnt⟩ := st
  obtain ⟨i, j⟩ := ij
  cases hg1 : ns[i]? with
  | none => simp [collidePair, hg1]
  | some n1 =>
    cases hg2 : ns[j]? with
    | none => simp [collidePair, hg1, hg2]
    | some n2 =>
      simp only [collidePair, hg1, hg2]
      by_cases hlt : (n2.x - n1.x) * (n2.x - n1.x) +
          (n2.y - n1.y) * (n2.y - n1.y) <
          (n1.radius + n2.radius + 2) * (n1.radius + n2.radius + 2)
      · rw [if_pos hlt]
        dsimp only
        exact map_v_double ns i j n1 n2 _ _ _ _ _ _ hg1 hg2
      · rw [if_neg hlt]

lemma lt_length_of_get {α : Type} (l : List α) (i : ℕ) (a : α)
    (h : l[i]? = some a) : i < l.length := by
  by_contra hcon
  push_neg at hcon
  rw [List.getElem?_eq_none (by omega)] at h
  cases h

lemma collidePair_skip (dragged : Option ℕ) (rand : ℕ → ℝ)
    (ns : List RNode) (cnt : ℕ) (i j : ℕ) (n1 n2 : RNode)
    (hg1 : ns[i]? = some n1) (hg2 : ns[j]? = some n2)
    (hfar : ¬ ((n2.x - n1.x) * (n2.x - n1.x) +
      (n2.y - n1.y) * (n2.y - n1.y) <
      (n1.radius + n2.radius + 2) * (n1.radius + n2.radius + 2))) :
    collidePair dragged rand (ns, cnt) (i, j) = (ns, cnt) := by
  simp only [collidePair, hg1, hg2]
  rw [if_neg hfar]

lemma collidePair_dragged (dragged : Option ℕ) (rand : ℕ → ℝ)
    (st : List RNode × ℕ) (ij : ℕ × ℕ) (d : ℕ) (hd : dragged = some d) :
    ((collidePair dragged rand st ij).1)[d]? = st.1[d]? := by
  obtain ⟨ns, cnt⟩ := st
  obtain ⟨i, j⟩ := ij
  cases hg1 : ns[i]? with
  | none => simp [collidePair, hg1]
  | some n1 =>
    cases hg2 : ns[j]? with
    | none => simp [collidePair, hg1, hg2]
    | some n2 =>
      simp only [collidePair, hg1, hg2]
      by_cases hlt : (n2.x - n1.x) * (n2.x - n1.x) +
          (n2.y - n1.y) * (n2.y - n1.y) <
          (n1.radius + n2.radius + 2) * (n1.radius + n2.radius + 2)
      · rw [if_pos hlt]
        dsimp only
        subst hd
        by_cases hj : some j ≠ some d
        · have hj' : j ≠ d := fun h => hj (by rw [h])
          rw [if_pos hj, get_of_set, if_neg (fun hc => hj' hc.1)]
          by_cases hi : some i ≠ some d
          · have hi' : i ≠ d := fun h => hi (by rw [h])
            rw [if_pos hi, get_of_set, if_neg (fun hc => hi' hc.1)]
          · rw [if_neg hi]
        · rw [if_neg hj]
          by_cases hi : some i ≠ some d
          · have hi' : i ≠ d := fun h => hi (by rw [h])
            rw [if_pos hi, get_of_set, if_neg (fun hc => hi' hc.1)]
          · rw [if_neg hi]
      · rw [if_neg hlt]

lemma foldPairs_map_velocity (dragged : Option ℕ) (rand : ℕ → ℝ) :
    ∀ (ps : List (ℕ × ℕ)) (st : List RNode × ℕ),
      ((ps.foldl (collidePair dragged rand) st).1).map velocityOf =
        st.1.map velocityOf := by
  intro ps
  induction ps with
  | nil => intro st; rfl
  | cons p l ih =>
    intro st
    rw [List.foldl_cons]
    exact (ih _).trans (collidePair_map_velocity dragged rand st p)

lemma foldPairs_dragged (dragged : Option ℕ) (rand : ℕ → ℝ) (d : ℕ)
    (hd : dragged = some d) :
    ∀ (ps : List (ℕ × ℕ)) (st : List RNode × ℕ),
      ((ps.foldl (collidePair dragged rand) st).1)[d]? = st.1[d]? := by
  intro ps
  induction ps with
  | nil => intro st; rfl
  | cons p l ih =>
    intro st
    rw [List.foldl_cons]
    exact (ih _).trans (collidePair_dragged dragged rand st p d hd)

lemma resolveCollisions_map_velocity (dragged : Option ℕ) (rand : ℕ → ℝ)
    (ns : List RNode) :
    (resolveCollisions dragged rand ns).map velocityOf =
      ns.map velocityOf := by
  have h2 : List.range 2 = [0, 1] := rfl
  simp only [resolveCollisions, h2, List.foldl_cons, List.foldl_nil]
  exact (foldPairs_map_velocity dragged rand _ _).trans
    (foldPairs_map_velocity dragged rand _ _)

lemma resolveCollisions_dragged (dragged : Option ℕ) (rand : ℕ → ℝ)
    (ns : List RNode) (d : ℕ) (hd : dragged = some d) :
    (resolveCollisions dragged rand ns)[d]? = ns[d]? := by
  have h2 : List.range 2 = [0, 1] := rfl
  simp only [resolveCollisions, h2, List.foldl_cons, List.foldl_nil]
  exact (foldPairs_dragged dragged rand d hd _ _).trans
    (foldPairs_dragged dragged rand d hd _ _)

lemma collidePair_moves (dragged : Option ℕ) (rand : ℕ → ℝ)
    (ns : List RNode) (cnt : ℕ) (i j : ℕ) (n1 n2 : RNode)
    (hg1 : ns[i]? = some n1) (hg2 : ns[j]? = some n2) (hij : i ≠ j)
    (hlt : (n2.x - n1.x) * (n2.x - n1.x) + (n2.y - n1.y) * (n2.y - n1.y) <
      (n1.radius + n2.radius + 2) * (n1.radius + n2.radius + 2))
    (hdist : Real.sqrt ((n2.x - n1.x) * (n2.x - n1.x) +
      (n2.y - n1.y) * (n2.y - n1.y)) ≠ 0) :
    (some i ≠ dragged → ((collidePair dragged rand (ns, cnt) (i, j)).1)[i]? =
      some { n1 with
        x := n1.x - (n2.x - n1.x) / Real.sqrt ((n2.x - n1.x) * (n2.x - n1.x) + (n2.y - n1.y) * (n2.y - n1.y)) * (n1.radius + n2.radius + 2 - Real.sqrt ((n2.x - n1.x) * (n2.x - n1.x) + (n2.y - n1.y) * (n2.y - n1.y))) * (1 / 2)
        y := n1.y - (n2.y - n1.y) / Real.sqrt ((n2.x - n1.x) * (n2.x - n1.x) + (n2.y - n1.y) * (n2.y - n1.y)) * (n1.radius + n2.radius + 2 - Real.sqrt ((n2.x - n1.x) * (n2.x - n1.x) + (n2.y - n1.y) * (n2.y - n1.y))) * (1 / 2) }) ∧
    (some i = dragged → ((collidePair dragged rand (ns, cnt) (i, j)).1)[i]? = some n1) ∧
    (some j ≠ dragged → ((collidePair dragged rand (ns, cnt) (i, j)).1)[j]? =
      some { n2 with
        x := n2.x + (n2.x - n1.x) / Real.sqrt ((n2.x - n1.x) * (n2.x - n1.x) + (n2.y - n1.y) * (n2.y - n1.y)) * (n1.radius + n2.radius + 2 - Real.sqrt ((n2.x - n1.x) * (n2.x - n1.x) + (n2.y - n1.y) * (n2.y - n1.y))) * (1 / 2)
        y := n2.y + (n2.y - n1.y) / Real.sqrt ((n2.x - n1.x) * (n2.x - n1.x) + (n2.y - n1.y) * (n2.y - n1.y)) * (n1.radius + n2.radius + 2 - Real.sqrt ((n2.x - n1.x) * (n2.x - n1.x) + (n2.y - n1.y) * (n2.y - n1.y))) * (1 / 2) }) ∧
    (some j = dragged → ((collidePair dragged rand (ns, cnt) (i, j)).1)[j]? = some n2) := by
  simp only [collidePair, hg1, hg2]
  rw [if_pos hlt]
  dsimp only
  rw [if_neg hdist, if_neg hdist]
  by_cases hdi : some i ≠ dragged <;> by_cases hdj : some j ≠ dragged
  · rw [if_pos hdj, if_pos hdi]
    refine ⟨fun _ => ?_, fun h => absurd h hdi, fun _ => ?_,
      fun h => absurd h hdj⟩
    · rw [get_of_set, if_neg (fun hc => hij hc.1.symm), get_of_set,
        if_pos ⟨rfl, lt_length_of_get ns i n1 hg1⟩]
    · rw [get_of_set, if_pos ⟨rfl, by rw [List.length_set]; exact lt_length_of_get ns j n2 hg2⟩]
  · rw [if_neg hdj, if_pos hdi]
    refine ⟨fun _ => ?_, fun h => absurd h hdi, fun h => absurd h hdj,
      fun _ => ?_⟩
    · rw [get_of_set, if_pos ⟨rfl, lt_length_of_get ns i n1 hg1⟩]
    · rw [get_of_set, if_neg (fun hc => hij hc.1)]
      exact hg2
  · rw [if_pos hdj, if_neg hdi]
    refine ⟨fun h => absurd h hdi, fun _ => ?_, fun _ => ?_,
      fun h => absurd h hdj⟩
    · rw [get_of_set, if_neg (fun hc => hij hc.1.symm)]
      exact hg1
    · rw [get_of_set, if_pos ⟨rfl, lt_length_of_get ns j n2 hg2⟩]
  · rw [if_neg hdj, if_neg hdi]
    exact ⟨fun h => absurd h hdi, fun _ => hg1, fun h => absurd h hdj,
      fun _ => hg2⟩

/-- C7: a full collision-resolver run (2 passes over all pairs) never
changes any node's `vx`/`vy` and never changes the dragged node; within a
pass a pair is left untouched unless its squared distance is below
`(radius1 + radius2 + padding)²` (padding 2), in which case each member of
the pair is guarded independently: a non-dragged member is moved by half
the overlap along the connecting unit vector even when its partner is the
dragged node, while a dragged member is left in place. -/
theorem resolveCollisions_spec :
    (∀ (dragged : Option ℕ) (rand : ℕ → ℝ) (ns : List RNode),
      (resolveCollisions dragged rand ns).map velocityOf =
        ns.map velocityOf) ∧
    (∀ (dragged : Option ℕ) (rand : ℕ → ℝ) (ns : List RNode) (d : ℕ),
      dragged = some d →
      (resolveCollisions dragged rand ns)[d]? = ns[d]?) ∧
    (∀ (dragged : Option ℕ) (rand : ℕ → ℝ) (ns : List RNode) (cnt i j : ℕ)
      (n1 n2 : RNode), ns[i]? = some n1 → ns[j]? = some n2 →
      ¬ ((n2.x - n1.x) * (n2.x - n1.x) + (n2.y - n1.y) * (n2.y - n1.y) <
        (n1.radius + n2.radius + 2) * (n1.radius + n2.radius + 2)) →
      collidePair dragged rand (ns, cnt) (i, j) = (ns, cnt)) ∧
    (∀ (dragged : Option ℕ) (rand : ℕ → ℝ) (ns : List RNode) (cnt i j : ℕ)
      (n1 n2 : RNode), ns[i]? = some n1 → ns[j]? = some n2 → i ≠ j →
      ((n2.x - n1.x) * (n2.x - n1.x) + (n2.y - n1.y) * (n2.y - n1.y) <
        (n1.radius + n2.radius + 2) * (n1.radius + n2.radius + 2)) →
      Real.sqrt ((n2.x - n1.x) * (n2.x - n1.x) +
        (n2.y - n1.y) * (n2.y - n1.y)) ≠ 0 →
      (some i ≠ dragged → ((collidePair dragged rand (ns, cnt) (i, j)).1)[i]? =
        some { n1 with
          x := n1.x - (n2.x - n1.x) / Real.sqrt ((n2.x - n1.x) * (n2.x - n1.x) + (n2.y - n1.y) * (n2.y - n1.y)) * (n1.radius + n2.radius + 2 - Real.sqrt ((n2.x - n1.x) * (n2.x - n1.x) + (n2.y - n1.y) * (n2.y - n1.y))) * (1 / 2)
          y := n1.y - (n2.y - n1.y) / Real.sqrt ((n2.x - n1.x) * (n2.x - n1.x) + (n2.y - n1.y) * (n2.y - n1.y)) * (n1.radius + n2.radius + 2 - Real.sqrt ((n2.x - n1.x) * (n2.x - n1.x) + (n2.y - n1.y) * (n2.y - n1.y))) * (1 / 2) }) ∧
      (some i = dragged → ((collidePair dragged rand (ns, cnt) (i, j)).1)[i]? = some n1) ∧
      (some j ≠ dragged → ((collidePair dragged rand (ns, cnt) (i, j)).1)[j]? =
        some { n2 with
          x := n2.x + (n2.x - n1.x) / Real.sqrt ((n2.x - n1.x) * (n2.x - n1.x) + (n2.y - n1.y) * (n2.y - n1.y)) * (n1.radius + n2.radius + 2 - Real.sqrt ((n2.x - n1.x) * (n2.x - n1.x) + (n2.y - n1.y) * (n2.y - n1.y))) * (1 / 2)
          y := n2.y + (n2.y - n1.y) / Real.sqrt ((n2.x - n1.x) * (n2.x - n1.x) + (n2.y - n1.y) * (n2.y - n1.y)) * (n1.radius + n2.radius + 2 - Real.sqrt ((n2.x - n1.x) * (n2.x - n1.x) + (n2.y - n1.y) * (n2.y - n1.y))) * (1 / 2) }) ∧
      (some j = dragged → ((collidePair dragged rand (ns, cnt) (i, j)).1)[j]? = some n2)) := by
  refine ⟨resolveCollisions_map_velocity, resolveCollisions_dragged, ?_, ?_⟩
  · intro dragged rand ns cnt i j n1 n2 hg1 hg2 hfar
    exact collidePair_skip dragged rand ns cnt i j n1 n2 hg1 hg2 hfar
  · intro dragged rand ns cnt i j n1 n2 hg1 hg2 hij hlt hdist
    exact collidePair_moves dragged rand ns cnt i j n1 n2 hg1 hg2 hij hlt
      hdist

/-- Witness for C7: a concrete non-overlapping pair is left untouched; a
concrete overlapping pair is pushed apart when no node is dragged; in the
mixed pair with node 0 dragged, node 0 stays put while node 1 is still
moved by half the overlap; and a full run preserves velocities and the
dragged node. -/
theorem resolveCollisions_spec_witness :
    ((resolveCollisions (some 0) (fun _ => 0) c7Ns).map velocityOf =
      c7Ns.map velocityOf) ∧
    ((resolveCollisions (some 0) (fun _ => 0) c7Ns)[0]? = c7Ns[0]?) ∧
    (collidePair (some 0) (fun _ => 0) (c7Ns, 0) (0, 1) = (c7Ns, 0)) ∧
    (((collidePair none (fun _ => 0) (c7Ov, 0) (0, 1)).1)[0]? =
      some { c7N1 with
        x := c7N1.x - (c7N2.x - c7N1.x) / Real.sqrt ((c7N2.x - c7N1.x) * (c7N2.x - c7N1.x) + (c7N2.y - c7N1.y) * (c7N2.y - c7N1.y)) * (c7N1.radius + c7N2.radius + 2 - Real.sqrt ((c7N2.x - c7N1.x) * (c7N2.x - c7N1.x) + (c7N2.y - c7N1.y) * (c7N2.y - c7N1.y))) * (1 / 2)
        y := c7N1.y - (c7N2.y - c7N1.y) / Real.sqrt ((c7N2.x - c7N1.x) * (c7N2.x - c7N1.x) + (c7N2.y - c7N1.y) * (c7N2.y - c7N1.y)) * (c7N1.radius + c7N2.radius + 2 - Real.sqrt ((c7N2.x - c7N1.x) * (c7N2.x - c7N1.x) + (c7N2.y - c7N1.y) * (c7N2.y - c7N1.y))) * (1 / 2) }) ∧
    (((collidePair none (fun _ => 0) (c7Ov, 0) (0, 1)).1)[1]? =
      some { c7N2 with
        x := c7N2.x + (c7N2.x - c7N1.x) / Real.sqrt ((c7N2.x - c7N1.x) * (c7N2.x - c7N1.x) + (c7N2.y - c7N1.y) * (c7N2.y - c7N1.y)) * (c7N1.radius + c7N2.radius + 2 - Real.sqrt ((c7N2.x - c7N1.x) * (c7N2.x - c7N1.x) + (c7N2.y - c7N1.y) * (c7N2.y - c7N1.y))) * (1 / 2)
        y := c7N2.y + (c7N2.y - c7N1.y) / Real.sqrt ((c7N2.x - c7N1.x) * (c7N2.x - c7N1.x) + (c7N2.y - c7N1.y) * (c7N2.y - c7N1.y)) * (c7N1.radius + c7N2.radius + 2 - Real.sqrt ((c7N2.x - c7N1.x) * (c7N2.x - c7N1.x) + (c7N2.y - c7N1.y) * (c7N2.y - c7N1.y))) * (1 / 2) }) ∧
    (((collidePair (some 0) (fun _ => 0) (c7Ov, 0) (0, 1)).1)[0]? =
      some c7N1) ∧
    (((collidePair (some 0) (fun _ => 0) (c7Ov, 0) (0, 1)).1)[1]? =
      some { c7N2 with
        x := c7N2.x + (c7N2.x - c7N1.x) / Real.sqrt ((c7N2.x - c7N1.x) * (c7N2.x - c7N1.x) + (c7N2.y - c7N1.y) * (c7N2.y - c7N1.y)) * (c7N1.radius + c7N2.radius + 2 - Real.sqrt ((c7N2.x - c7N1.x) * (c7N2.x - c7N1.x) + (c7N2.y - c7N1.y) * (c7N2.y - c7N1.y))) * (1 / 2)
        y := c7N2.y + (c7N2.y - c7N1.y) / Real.sqrt ((c7N2.x - c7N1.x) * (c7N2.x - c7N1.x) + (c7N2.y - c7N1.y) * (c7N2.y - c7N1.y)) * (c7N1.radius + c7N2.radius + 2 - Real.sqrt ((c7N2.x - c7N1.x) * (c7N2.x - c7N1.x) + (c7N2.y - c7N1.y) * (c7N2.y - c7N1.y))) * (1 / 2) }) :=
  ⟨resolveCollisions_spec.1 (some 0) (fun _ => 0) c7Ns,
   resolveCollisions_spec.2.1 (some 0) (fun _ => 0) c7Ns 0 rfl,
   resolveCollisions_spec.2.2.1 (some 0) (fun _ => 0) c7Ns 0 0 1
     ⟨0, 0, 0, 0, 15⟩ ⟨100, 0, 0, 0, 15⟩ rfl rfl (by norm_num),
   (resolveCollisions_spec.2.2.2 none (fun _ => 0) c7Ov 0 0 1 c7N1 c7N2
     rfl rfl (by norm_num) (by norm_num [c7N1, c7N2])
     (Real.sqrt_ne_zero'.mpr (by norm_num [c7N1, c7N2]))).1 (by simp),
   (resolveCollisions_spec.2.2.2 none (fun _ => 0) c7Ov 0 0 1 c7N1 c7N2
     rfl rfl (by norm_num) (by norm_num [c7N1, c7N2])
     (Real.sqrt_ne_zero'.mpr (by norm_num [c7N1, c7N2]))).2.2.1 (by simp),
   (resolveCollisions_spec.2.2.2 (some 0) (fun _ => 0) c7Ov 0 0 1 c7N1 c7N2
     rfl rfl (by norm_num) (by norm_num [c7N1, c7N2])
     (Real.sqrt_ne_zero'.mpr (by norm_num [c7N1, c7N2]))).2.1 rfl,
   (resolveCollisions_spec.2.2.2 (some 0) (fun _ => 0) c7Ov 0 0 1 c7N1 c7N2
     rfl rfl (by norm_num) (by norm_num [c7N1, c7N2])
     (Real.sqrt_ne_zero'.mpr (by norm_num [c7N1, c7N2]))).2.2.1 (by simp)⟩

lemma rmapGet_rmapSet (m : RNodeMap) (k id : String) (v : RNode) :
    rmapGet (rmapSet m k v) id = if k = id then some v else rmapGet m id := by
  induction m with
  | nil =>
    by_cases h : k = id <;> simp [rmapGet, rmapSet, h]
  | cons p rest ih =>
    obtain ⟨pk, pv⟩ := p
    by_cases h1 : pk = k
    · subst h1
      by_cases h2 : pk = id <;> simp [rmapGet, rmapSet, h2]
    · by_cases h2 : pk = id
      · subst h2
        have hk : ¬ k = pk := fun h => h1 h.symm
        simp [rmapGet, rmapSet, h1, hk]
      · simp [rmapGet, rmapSet, h1, h2, ih]

lemma springStep_missing (dragged : Option String) (m : RNodeMap)
    (l : GraphLink)
    (hmiss : rmapGet m l.source = none ∨ rmapGet m l.target = none) :
    springStep dragged m l = m := by
  cases hs : rmapGet m l.source with
  | none => simp [springStep, hs]
  | some src =>
    cases ht : rmapGet m l.target with
    | none => simp [springStep, hs, ht]
    | some tgt =>
      rcases hmiss with h | h
      · rw [hs] at h; cases h
      · rw [ht] at h; cases h

lemma springStep_preserves_missing (dragged : Option String) (m : RNodeMap)
    (l : GraphLink) (id : String) (hid : rmapGet m id = none) :
    rmapGet (springStep dragged m l) id = none := by
  cases hs : rmapGet m l.source with
  | none => simp [springStep, hs, hid]
  | some src =>
    cases ht : rmapGet m l.target with
    | none => simp [springStep, hs, ht, hid]
    | some tgt =>
      have hsid : ¬ l.source = id := by
        intro h
        rw [h, hid] at hs
        cases hs
      have htid : ¬ l.target = id := by
        intro h
        rw [h, hid] at ht
        cases ht
      simp only [springStep, hs, ht]
      by_cases hz : Real.sqrt ((tgt.x - src.x) * (tgt.x - src.x) +
          (tgt.y - src.y) * (tgt.y - src.y)) = 0
      · rw [if_pos hz]
        exact hid
      · rw [if_neg hz]
        by_cases hdt : some l.target ≠ dragged
        · rw [if_pos hdt]
          rw [rmapGet_rmapSet, if_neg htid]
          by_cases hds : some l.source ≠ dragged
          · rw [if_pos hds, rmapGet_rmapSet, if_neg hsid]
            exact hid
          · rw [if_neg hds]
            exact hid
        · rw [if_neg hdt]
          by_cases hds : some l.source ≠ dragged
          · rw [if_pos hds, rmapGet_rmapSet, if_neg hsid]
            exact hid
          · rw [if_neg hds]
            exact hid

lemma applySprings_insert_inert (dragged : Option String) (l : GraphLink) :
    ∀ (ls1 ls2 : List GraphLink) (m : RNodeMap),
      (rmapGet m l.source = none ∨ rmapGet m l.target = none) →
      applySprings dragged m (ls1 ++ l :: ls2) =
        applySprings dragged m (ls1 ++ ls2) := by
  intro ls1
  induction ls1 with
  | nil =>
    intro ls2 m hmiss
    simp only [List.nil_append, applySprings, List.foldl_cons]
    rw [springStep_missing dragged m l hmiss]
  | cons a t ih =>
    intro ls2 m hmiss
    simp only [List.cons_append, applySprings, List.foldl_cons]
    have hmiss2 : rmapGet (springStep dragged m a) l.source = none ∨
        rmapGet (springStep dragged m a) l.target = none := by
      rcases hmiss with h | h
      · exact Or.inl (springStep_preserves_missing dragged m a l.source h)
      · exact Or.inr (springStep_preserves_missing dragged m a l.target h)
    exact ih ls2 (springStep dragged m a) hmiss2

/-- C8: a link with a missing endpoint id is inert — the spring pass leaves
the node map exactly as if the link were absent from the list (wherever it
sits), and the renderer emits no segment for it.  Both model functions are
total, so no error is possible. -/
theorem inert_link_spec (dragged : Option String) (m : RNodeMap)
    (l : GraphLink)
    (hmiss : rmapGet m l.source = none ∨ rmapGet m l.target = none) :
    springStep dragged m l = m ∧
    (∀ ls1 ls2 : List GraphLink,
      applySprings dragged m (ls1 ++ l :: ls2) =
        applySprings dragged m (ls1 ++ ls2)) ∧
    drawLinkSegment m l = none ∧
    (∀ links : List GraphLink,
      drawnSegments m (l :: links) = drawnSegments m links) := by
  refine ⟨springStep_missing dragged m l hmiss,
    fun ls1 ls2 => applySprings_insert_inert dragged l ls1 ls2 m hmiss,
    ?_, ?_⟩
  · cases hs : rmapGet m l.source with
    | none => simp [drawLinkSegment, hs]
    | some src =>
      cases ht : rmapGet m l.target with
      | none => simp [drawLinkSegment, hs, ht]
      | some tgt =>
        rcases hmiss with h | h
        · rw [hs] at h; cases h
        · rw [ht] at h; cases h
  · intro links
    have hnone : drawLinkSegment m l = none := by
      cases hs : rmapGet m l.source with
      | none => simp [drawLinkSegment, hs]
      | some src =>
        cases ht : rmapGet m l.target with
        | none => simp [drawLinkSegment, hs, ht]
        | some tgt =>
          rcases hmiss with h | h
          · rw [hs] at h; cases h
          · rw [ht] at h; cases h
    simp [drawnSegments, hnone]

/-- Witness for C8: a one-node map and a link whose target id "b" is
absent. -/
theorem inert_link_spec_witness :
    (rmapGet [("a", (⟨0, 0, 0, 0, 15⟩ : RNode))] "b" = none) ∧
    springStep none [("a", (⟨0, 0, 0, 0, 15⟩ : RNode))] ⟨"a", "b"⟩ =
      [("a", (⟨0, 0, 0, 0, 15⟩ : RNode))] ∧
    drawLinkSegment [("a", (⟨0, 0, 0, 0, 15⟩ : RNode))] ⟨"a", "b"⟩ = none :=
  ⟨rfl,
    (inert_link_spec none [("a", (⟨0, 0, 0, 0, 15⟩ : RNode))] ⟨"a", "b"⟩
      (Or.inr rfl)).1,
    (inert_link_spec none [("a", (⟨0, 0, 0, 0, 15⟩ : RNode))] ⟨"a", "b"⟩
      (Or.inr rfl)).2.2.1⟩

/-- C6: the pointer-up handler emits the click exactly once with the
dragged node iff a node was being dragged and the screen distance from the
pointer-down position is below 5 px; it emits at most one click, and it
always resets the interaction state to idle (no dragged node, not
panning). -/
theorem onMouseUp_spec (s : InputState) (pos : ℝ × ℝ) :
    (∀ n : String, (onMouseUp s pos).2 = [n] ↔
      (s.isDraggingNode = true ∧ s.draggedNode = some n ∧
        Real.sqrt ((pos.1 - s.clickStartPos.1) ^ 2 +
          (pos.2 - s.clickStartPos.2) ^ 2) < 5)) ∧
    ((onMouseUp s pos).2 = [] ∨ ∃ n, (onMouseUp s pos).2 = [n]) ∧
    (onMouseUp s pos).1.isDraggingNode = false ∧
    (onMouseUp s pos).1.draggedNode = none ∧
    (onMouseUp s pos).1.isPanning = false := by
  refine ⟨?_, ?_, rfl, rfl, rfl⟩
  · intro n
    cases hdn : s.draggedNode with
    | none => simp [onMouseUp, hdn]
    | some n0 =>
      simp only [onMouseUp, hdn]
      by_cases hcond : s.isDraggingNode = true ∧
          Real.sqrt ((pos.1 - s.clickStartPos.1) ^ 2 +
            (pos.2 - s.clickStartPos.2) ^ 2) < 5
      · rw [if_pos hcond]
        constructor
        · intro h
          have hn : n0 = n := by simpa using h
          subst hn
          exact ⟨hcond.1, rfl, hcond.2⟩
        · rintro ⟨-, hsome, -⟩
          cases hsome
          rfl
      · rw [if_neg hcond]
        constructor
        · intro h
          exact absurd h (by simp)
        · rintro ⟨h1, hsome, h3⟩
          cases hsome
          exact absurd ⟨h1, h3⟩ hcond
  · cases hdn : s.draggedNode with
    | none =>
      left
      simp [onMouseUp, hdn]
    | some n0 =>
      simp only [onMouseUp, hdn]
      by_cases hcond : s.isDraggingNode = true ∧
          Real.sqrt ((pos.1 - s.clickStartPos.1) ^ 2 +
            (pos.2 - s.clickStartPos.2) ^ 2) < 5
      · right
        exact ⟨n0, by rw [if_pos hcond]⟩
      · left
        rw [if_neg hcond]

/-- Witness for C6, the spec's click scenario: pointer-down at (100,100),
pointer-up at (102,101) (distance √5 < 5) clicks the dragged node; a
pointer-up at (120,100) (distance 20) does not; state is reset either
way. -/
theorem onMouseUp_spec_witness :
    (onMouseUp ⟨true, some "n1", false, (100, 100)⟩
      ((102 : ℝ), (101 : ℝ))).2 = ["n1"] ∧
    (onMouseUp ⟨true, some "n1", false, (100, 100)⟩
      ((120 : ℝ), (100 : ℝ))).2 = [] ∧
    (onMouseUp ⟨true, some "n1", false, (100, 100)⟩
      ((120 : ℝ), (100 : ℝ))).1.isDraggingNode = false ∧
    (onMouseUp ⟨true, some "n1", false, (100, 100)⟩
      ((120 : ℝ), (100 : ℝ))).1.draggedNode = none ∧
    (onMouseUp ⟨true, some "n1", false, (100, 100)⟩
      ((120 : ℝ), (100 : ℝ))).1.isPanning = false := by
  have hspec1 := onMouseUp_spec ⟨true, some "n1", false, (100, 100)⟩
    ((102 : ℝ), (101 : ℝ))
  have hspec2 := onMouseUp_spec ⟨true, some "n1", false, (100, 100)⟩
    ((120 : ℝ), (100 : ℝ))
  have hclose : Real.sqrt ((((102 : ℝ), (101 : ℝ)).1 -
      ((⟨true, some "n1", false, (100, 100)⟩ : InputState).clickStartPos).1) ^ 2 +
      ((((102 : ℝ), (101 : ℝ))).2 -
      ((⟨true, some "n1", false, (100, 100)⟩ : InputState).clickStartPos).2) ^ 2) < 5 := by
    refine (Real.sqrt_lt' (by norm_num)).mpr ?_
    norm_num
  have hfar : ¬ Real.sqrt ((((120 : ℝ), (100 : ℝ)).1 -
      ((⟨true, some "n1", false, (100, 100)⟩ : InputState).clickStartPos).1) ^ 2 +
      ((((120 : ℝ), (100 : ℝ))).2 -
      ((⟨true, some "n1", false, (100, 100)⟩ : InputState).clickStartPos).2) ^ 2) < 5 := by
    rw [Real.sqrt_lt' (by norm_num)]
    norm_num
  refine ⟨(hspec1.1 "n1").mpr ⟨rfl, rfl, hclose⟩, ?_, hspec2.2.2.1,
    hspec2.2.2.2.1, hspec2.2.2.2.2⟩
  rcases hspec2.2.1 with hnil | ⟨n, hn⟩
  · exact hnil
  · obtain ⟨-, -, hlt⟩ := (hspec2.1 n).mp hn
    exact absurd hlt hfar
